import Mathlib

/-!
# Verification of the FAST static index (`src/static_index/fast_index.h`)

A shallow embedding of the cache/SIMD-aware static index `FastIndex`.
Keys are 4-byte signed scalars, modelled as `Int`; row references are
modelled as `Nat`.  The raw inner-node key buffer (`KeyT *inner_nodes_`)
is modelled as a total function `Nat → Int` updated pointwise, matching
the unchecked pointer writes of the C++ source.  The output vector
passed by reference to `find`/`find_range` is modelled by explicit
state passing: each operation takes the current vector (a `List Nat`)
and returns the vector after all `push_back` calls.
-/

namespace FastIndex

/-- A record of the sorted table: `(key_, value_)` pair (`GenericDataRecord`). -/
structure Record where
  key : Int
  value : Nat
deriving DecidableEq

/-- Read `container_[i].key_`. -/
def getKey (c : List Record) (i : Nat) : Int :=
  (c.getD i ⟨0, 0⟩).key

/-- Read `container_[i].value_`. -/
def getVal (c : List Record) (i : Nat) : Nat :=
  (c.getD i ⟨0, 0⟩).value

/-! ## Geometry Calculator (the `FastIndex` constructor, lines 20–63) -/

/-- `SIMD_SIZE` in bytes (128 bits). -/
def SIMD_SIZE : Nat := 16

/-- `CACHELINE_SIZE` in bytes. -/
def CACHELINE_SIZE : Nat := 64

/-- `PAGE_SIZE` in bytes. -/
def PAGE_SIZE : Nat := 4096

/-- `sizeof(KeyT)`: the index only supports 4-byte keys. -/
def keySize : Nat := 4

/-- Structural floor-log₂ with explicit fuel: `log2floor fuel n` is
`⌊log₂ n⌋` whenever `fuel ≥ n`.  Models the truncated
`std::log(x) / std::log(2)` of the constructor, which is exact for the
small constants involved (5, 17, 1025). -/
def log2floor : Nat → Nat → Nat
  | 0, _ => 0
  | fuel + 1, n => if 2 ≤ n then log2floor fuel (n / 2) + 1 else 0

/-- Floor of `log₂ n`. -/
def floor_log2 (n : Nat) : Nat := log2floor n n

/-- Max SIMD block key capacity, `SIMD_SIZE / sizeof(KeyT)`. -/
def simd_key_capacity_max : Nat := SIMD_SIZE / keySize

/-- Max SIMD block depth: `log(capacity + 1) / log(2)` truncated. -/
def simd_depth : Nat := floor_log2 (simd_key_capacity_max + 1)

/-- Updated SIMD block key capacity, `2^simd_depth − 1`. -/
def simd_key_capacity : Nat := 2 ^ simd_depth - 1

/-- Max cacheline block key capacity, `CACHELINE_SIZE / sizeof(KeyT)`. -/
def cacheline_key_capacity_max : Nat := CACHELINE_SIZE / keySize

/-- Max cacheline block depth before rounding. -/
def cacheline_depth_max : Nat := floor_log2 (cacheline_key_capacity_max + 1)

/-- Cacheline depth rounded down to a multiple of `simd_depth`. -/
def cacheline_depth : Nat :=
  if cacheline_depth_max % simd_depth ≠ 0 then
    (cacheline_depth_max / simd_depth) * simd_depth
  else cacheline_depth_max

/-- Updated cacheline key capacity, `2^cacheline_depth − 1` (line 42,
unconditional). -/
def cacheline_key_capacity : Nat := 2 ^ cacheline_depth - 1

/-- Max page block key capacity, `PAGE_SIZE / sizeof(KeyT)`. -/
def page_key_capacity_max : Nat := PAGE_SIZE / keySize

/-- Max page block depth before rounding. -/
def page_depth_max : Nat := floor_log2 (page_key_capacity_max + 1)

/-- Page depth rounded down to a multiple of `cacheline_depth`. -/
def page_depth : Nat :=
  if page_depth_max % cacheline_depth ≠ 0 then
    (page_depth_max / cacheline_depth) * cacheline_depth
  else page_depth_max

/-- Page key capacity; only recomputed when the depth was rounded
(lines 54–57). -/
def page_key_capacity : Nat :=
  if page_depth_max % cacheline_depth ≠ 0 then 2 ^ page_depth - 1
  else page_key_capacity_max

/-- The constructor's fatal `ASSERT`s (lines 22, 44, 58, 61), in source
order.  `none` models a fatal assertion failure: the index is never
constructed and can never serve a query. -/
def fastIndexCtor (num_layers : Nat) : Option Nat :=
  if keySize ≠ 4 then none
  else if cacheline_key_capacity % simd_key_capacity ≠ 0 then none
  else if page_key_capacity % cacheline_key_capacity ≠ 0 then none
  else if num_layers % cacheline_depth ≠ 0 then none
  else some num_layers

/-! ## Index state -/

/-- The queryable state of a `FastIndex` after `reorganize`:
the sorted container, the configured `num_layers_`, the cached
`key_min_`/`key_max_` bounds and the inner-node buffer. -/
structure FastIndexT where
  container : List Record
  num_layers : Nat
  key_min : Int
  key_max : Int
  inner_nodes : Nat → Int

/-! ## Tree Builder (lines 181–236) -/

/-- A single write `inner_nodes_[i] = v` into the raw key buffer. -/
def store (f : Nat → Int) (i : Nat) (v : Int) : Nat → Int :=
  fun j => if j = i then v else f j

/-- `construct_simd_block` (lines 226–236): write the 3 fence keys of the
offset range `[lhs, rhs]` at buffer positions `current_pos + 0/1/2`.
With `step = (rhs − lhs + 1) / 4` the keys written are the container
keys at `lhs + 2*step − 1`, `lhs + 1*step − 1`, `lhs + 3*step − 1`,
in that slot order. -/
def construct_simd_block (c : List Record) (inner : Nat → Int)
    (current_pos lhs rhs : Nat) : Nat → Int :=
  let step := (rhs - lhs + 1) / 4
  let inner := store inner (current_pos + 0) (getKey c (lhs + 2 * step - 1))
  let inner := store inner (current_pos + 1) (getKey c (lhs + 1 * step - 1))
  store inner (current_pos + 2) (getKey c (lhs + 3 * step - 1))

/-- `construct_cacheline_block` (lines 213–223): one root SIMD block over
`[lhs, rhs]` followed by 4 child SIMD blocks over the quarters. -/
def construct_cacheline_block (c : List Record) (inner : Nat → Int)
    (current_pos lhs rhs : Nat) : Nat → Int :=
  let inner := construct_simd_block c inner current_pos lhs rhs
  let step := (rhs - lhs + 1) / 4
  (List.range 4).foldl
    (fun acc i =>
      construct_simd_block c acc (current_pos + 3 * (i + 1))
        (lhs + step * i) (lhs + step * (i + 1) - 1))
    inner

/-- `construct_inner_layers` (lines 181–209): level 0 is one cacheline
block over the indexable range; level `i ≥ 1` has `16^i` cacheline blocks,
laid out contiguously, 16 buffer keys each. -/
def construct_inner_layers (c : List Record) (size num_layers : Nat) :
    Nat → Int :=
  let cacheline_levels := num_layers / cacheline_depth
  let num_last_level_cachelines := 16 ^ (cacheline_levels - 1)
  let max_partitions := num_last_level_cachelines * 16
  let lhs_offset := 0
  let rhs_offset := size - 1 - size % max_partitions
  let inner0 : Nat → Int := fun _ => 0
  let inner1 := construct_cacheline_block c inner0 0 lhs_offset rhs_offset
  let state :=
    (List.range (cacheline_levels - 1)).foldl
      (fun st k =>
        let i := k + 1
        let num_cachelines := 16 ^ i
        let step := (rhs_offset - lhs_offset + 1) / num_cachelines
        let inner2 :=
          (List.range num_cachelines).foldl
            (fun acc j =>
              construct_cacheline_block c acc (st.2 + 16 * j)
                (step * j) (step * (j + 1) - 1))
            st.1
        (inner2, st.2 + 16 * num_cachelines))
      (inner1, 16)
  state.1

/-- `reorganize` (lines 141–166): recompute bounds and rebuild the
inner-node buffer.  The fatal `ASSERT(inner_node_size < this->size_)`
(line 147) is modelled by returning `none`.  The container is assumed
already sorted by `base_reorganize` (external collaborator). -/
def reorganize (c : List Record) (num_layers : Nat) : Option FastIndexT :=
  let inner_node_size := 2 ^ num_layers - 1
  if inner_node_size < c.length then
    some
      { container := c
        num_layers := num_layers
        key_min := getKey c 0
        key_max := getKey c (c.length - 1)
        inner_nodes :=
          if num_layers ≠ 0 then construct_inner_layers c c.length num_layers
          else fun _ => 0 }
  else none

/-! ## Vectorized Branch Selector (lines 290–301) -/

/-- The 3-bit comparison mask of `_mm_cmpgt_epi32` + `_mm_movemask_ps`:
bit `i` is set exactly when `key > inner_nodes_[pos + i]` (signed
compare). -/
def cmp_mask (inner : Nat → Int) (key : Int) (pos : Nat) : Nat :=
  (if inner pos < key then 1 else 0) +
    2 * (if inner (pos + 1) < key then 1 else 0) +
    4 * (if inner (pos + 2) < key then 1 else 0)

/-- The fixed lookup table `{0, 9, 1, 2, 9, 9, 9, 3}` indexed by
`index & 7`; 9 stands for impossible. -/
def branch_table (m : Nat) : Nat :=
  [0, 9, 1, 2, 9, 9, 9, 3].getD (m % 8) 0

/-- `lookup_simd_block` (lines 290–301): compare the key against the
3 fence keys at `pos` and map the mask through the fixed table. -/
def lookup_simd_block (inner : Nat → Int) (key : Int) (pos : Nat) : Nat :=
  branch_table (cmp_mask inner key pos)

/-- Naive scalar three-comparison branch selector.  Modelled from the
spec: the branch id equals the number of fence keys the query key
exceeds (mask `000→0`, `010→1`, `011→2`, `111→3`), computed by three
independent scalar comparisons with no vector instructions or lookup
table. -/
def scalar_branch (key f0 f1 f2 : Int) : Nat :=
  (if key > f0 then 1 else 0) + (if key > f1 then 1 else 0) +
    (if key > f2 then 1 else 0)

/-! ## Tree Lookup (lines 239–287) -/

/-- `lookup_cacheline_block` (lines 278–287): root SIMD block, then the
child SIMD block at `pos + 3*(branch_id + 1)`; combined id is
`branch_id * 4 + new_branch_id`. -/
def lookup_cacheline_block (inner : Nat → Int) (key : Int) (pos : Nat) :
    Nat :=
  let branch_id := lookup_simd_block inner key pos
  let new_pos := pos + 3 * (branch_id + 1)
  let new_branch_id := lookup_simd_block inner key new_pos
  branch_id * 4 + new_branch_id

/-- The `for (i = 1; i < cacheline_levels; ++i)` loop of
`find_inner_layers` (lines 254–263), recursing on the remaining
iteration count.  Returns the final `(branch_id, num_cachelines)`. -/
def fil_loop (inner : Nat → Int) (key : Int) :
    Nat → Nat → Nat → Nat → Nat → Nat × Nat
  | 0, branch_id, _, num_cachelines, _ => (branch_id, num_cachelines)
  | remaining + 1, branch_id, current_pos, num_cachelines, i =>
    let new_branch_id :=
      lookup_cacheline_block inner key (current_pos + branch_id * 16)
    fil_loop inner key remaining (branch_id * 16 + new_branch_id)
      (current_pos + 16 * num_cachelines) (16 ^ (i + 1)) (i + 1)

/-- `find_inner_layers` (lines 239–275): narrow the key to an inclusive
offset range of the sorted table.  If `num_layers_ == 0` the tree is
skipped and the full table range is returned. -/
def find_inner_layers (idx : FastIndexT) (key : Int) : Nat × Nat :=
  let size := idx.container.length
  if idx.num_layers = 0 then (0, size - 1)
  else
    let cacheline_levels := idx.num_layers / cacheline_depth
    let num_last_level_cachelines := 16 ^ (cacheline_levels - 1)
    let max_partitions := num_last_level_cachelines * 16
    let branch_id0 := lookup_cacheline_block idx.inner_nodes key 0
    let res :=
      fil_loop idx.inner_nodes key (cacheline_levels - 1) branch_id0 16 16 1
    let branch_id := res.1
    let num_cachelines := res.2
    let lhs_offset := 0
    let rhs_offset := size - 1 - size % max_partitions
    let step := (rhs_offset - lhs_offset + 1) / num_cachelines
    if branch_id < num_cachelines - 1 then
      (branch_id * step, (branch_id + 1) * step - 1)
    else (branch_id * step, size - 1)

/-- `find_internal` (lines 306–320): recursive binary search over the
inclusive range `[offset_begin, offset_end]`; returns `size` when the
key is absent.  The fuel argument bounds the recursion depth; callers
pass `size + 1`, which exceeds the depth of any reachable search. -/
def find_internal (c : List Record) (size : Nat) (key : Int) :
    Nat → Int → Int → Nat
  | 0, _, _ => size
  | fuel + 1, offset_begin, offset_end =>
    if offset_begin > offset_end then size
    else
      let offset_lookup := (offset_begin + offset_end) / 2
      let key_lookup := getKey c offset_lookup.toNat
      if key = key_lookup then offset_lookup.toNat
      else if key > key_lookup then
        find_internal c size key fuel (offset_lookup + 1) offset_end
      else find_internal c size key fuel offset_begin (offset_lookup - 1)

/-! ## Index Façade (lines 72–139) -/

/-- The leftward duplicate scan of `find` (lines 106–115): starting at
`offset_find_lhs = offset_find − 1`, push values while the key matches
and the offset is ≥ 0.  The argument is the offset one past the first
offset examined, so the scan at `offset −1` is the base case `0`. -/
def move_left (c : List Record) (key : Int) : Nat → List Nat
  | 0 => []
  | i + 1 =>
    if getKey c i = key then getVal c i :: move_left c key i else []

/-- The rightward duplicate scan of `find` (lines 117–126): starting at
`offset_find_rhs = offset_find + 1`, push values while
`offset_find_rhs < size_ − 1` and the key matches.  The fuel argument
(callers pass `size`) bounds the loop. -/
def move_right (c : List Record) (size : Nat) (key : Int) :
    Nat → Nat → List Nat
  | 0, _ => []
  | fuel + 1, i =>
    if i < size - 1 then
      if getKey c i = key then
        getVal c i :: move_right c size key fuel (i + 1)
      else []
    else []

/-- `find` (lines 72–127): point lookup appending every matching record's
reference to `values`.  Empty index and out-of-bounds keys return the
vector unchanged; the degenerate `key_min_ == key_max_` case pushes the
whole table on a match; otherwise the tree lookup narrows a range, a
binary search finds one match and the two scans collect duplicates. -/
def find (idx : FastIndexT) (key : Int) (values : List Nat) : List Nat :=
  let c := idx.container
  let size := c.length
  if size = 0 then values
  else if key > idx.key_max ∨ key < idx.key_min then values
  else if idx.key_max = idx.key_min then
    if idx.key_max = key then values ++ c.map (fun r => r.value) else values
  else
    let offset_range := find_inner_layers idx key
    let offset_find :=
      if offset_range.1 = offset_range.2 then offset_range.1
      else
        find_internal c size key (size + 1) (offset_range.1 : Int)
          (offset_range.2 : Int)
    if offset_find = size then values
    else
      values ++
        (getVal c offset_find ::
          (move_left c key offset_find ++
            move_right c size key size (offset_find + 1)))

/-- `find_range` (lines 129–139): beyond the empty-index and
out-of-bounds short-circuits the body is empty, so no reference is ever
appended.  The `assert(lhs_key < rhs_key)` caller contract does not
affect the (absent) result. -/
def find_range (idx : FastIndexT) (lhs_key rhs_key : Int)
    (values : List Nat) : List Nat :=
  let size := idx.container.length
  if size = 0 then values
  else if lhs_key > idx.key_max ∨ rhs_key < idx.key_min then values
  else values

/-! ## Concrete inputs used by the claims -/

/-- The spec's concrete scenario: sorted keys `[1,1,3,5,5,5,9,12]`,
references `0..7`. -/
def table9 : List Record :=
  [⟨1, 0⟩, ⟨1, 1⟩, ⟨3, 2⟩, ⟨5, 3⟩, ⟨5, 4⟩, ⟨5, 5⟩, ⟨9, 6⟩, ⟨12, 7⟩]

/-- Sorted keys `[1,2,2]`, references `0..2`: the queried key 2 is
duplicated and one duplicate sits at the last offset. -/
def table121 : List Record := [⟨1, 0⟩, ⟨2, 1⟩, ⟨2, 2⟩]

/-- Eight records with pairwise distinct keys `0..7`, references `0..7`. -/
def tableDistinct8 : List Record :=
  [⟨0, 0⟩, ⟨1, 1⟩, ⟨2, 2⟩, ⟨3, 3⟩, ⟨4, 4⟩, ⟨5, 5⟩, ⟨6, 6⟩, ⟨7, 7⟩]

/-- A fence buffer `(0, 10, 10)` that is not monotone in branch order:
against key 5 it produces the impossible comparison mask `001`. -/
def innerImp : Nat → Int :=
  store (store (store (fun _ => 0) 0 0) 1 10) 2 10

/-- A one-key index state, as produced by `reorganize [⟨1, 0⟩] 0`. -/
def idxOne : FastIndexT :=
  { container := [⟨1, 0⟩], num_layers := 0, key_min := 1, key_max := 1,
    inner_nodes := fun _ => 0 }

/-- The index state produced by `reorganize` on a two-record table whose
records both carry key 5. -/
def idxDegenerate : FastIndexT :=
  { container := [⟨5, 0⟩, ⟨5, 1⟩], num_layers := 0, key_min := 5,
    key_max := 5, inner_nodes := fun _ => 0 }

/-! ## Helper lemmas -/

/-- An in-bounds `List.getD` read returns an element of the list. -/
theorem getD_mem :
    ∀ (c : List Record) (i : Nat) (d : Record), i < c.length → c.getD i d ∈ c
  | a :: _, 0, _, _ => List.mem_cons_self a _
  | a :: c, i + 1, d, h =>
    List.mem_cons_of_mem a (getD_mem c i d (by simpa using h))

/-! ## Claims -/

/-- C1: the claim states that `find k` collects every duplicate of a
found key and returns exactly the references of records with key `k`.
The code misses a duplicate at the last offset: the rightward scan runs
only while `offset < size_ − 1`.  On the sorted table `[1,2,2]` with
`num_layers = 0`, `find 2` returns only reference `1`, although the
record at offset 2 also has key 2 and reference 2. -/
theorem C1_find_misses_last_duplicate :
    (reorganize table121 0).map (fun idx => find idx 2 []) = some [1] ∧
      getKey table121 2 = 2 ∧ getVal table121 2 = 2 ∧
      table121.length = 3 := by decide

/-- C2: the claim states that `find_range lo hi` returns exactly the
references with key in `[lo, hi)`.  The code's `find_range` body is a
stub: beyond the short-circuits it appends nothing.  On the spec's own
scenario table, `find_range 3 9` returns empty although the records at
offsets 2..5 all have keys in `[3, 9)`. -/
theorem C2_find_range_stub_returns_empty :
    (reorganize table9 0).map (fun idx => find_range idx 3 9 []) = some [] ∧
      (∀ i ∈ [2, 3, 4, 5], 3 ≤ getKey table9 i ∧ getKey table9 i < 9) := by
  decide

/-- C3 counterexample: over the distinct-key table and the range
`[0, 7]` (`step = 2`), buffer slot 0 holds key index 3 and slot 1 holds
key index 1 — not the claimed indices `lhs + 2*step = 4` and
`lhs + step = 2`. -/
theorem C3_cex :
    construct_simd_block tableDistinct8 (fun _ => 0) 0 0 7 0 ≠
        getKey tableDistinct8 (0 + 2 * ((7 - 0 + 1) / 4)) ∧
      construct_simd_block tableDistinct8 (fun _ => 0) 0 0 7 1 ≠
        getKey tableDistinct8 (0 + (7 - 0 + 1) / 4) := by decide

/-- C3 (amended): for every vector block over `[lhs, rhs]` with
`step = (rhs − lhs + 1) / 4`, slot 0 holds the table key at index
`lhs + 2*step − 1`, slot 1 the key at `lhs + 1*step − 1`, and slot 2
the key at `lhs + 3*step − 1` — the quarter boundaries shifted down by
one, in the order {2nd quarter, 1st quarter, 3rd quarter}. -/
theorem C3_fence_keys (c : List Record) (inner : Nat → Int)
    (pos lhs rhs : Nat) :
    construct_simd_block c inner pos lhs rhs (pos + 0) =
        getKey c (lhs + 2 * ((rhs - lhs + 1) / 4) - 1) ∧
      construct_simd_block c inner pos lhs rhs (pos + 1) =
        getKey c (lhs + 1 * ((rhs - lhs + 1) / 4) - 1) ∧
      construct_simd_block c inner pos lhs rhs (pos + 2) =
        getKey c (lhs + 3 * ((rhs - lhs + 1) / 4) - 1) := by
  refine ⟨?_, ?_, ?_⟩ <;> simp [construct_simd_block, store]

/-- C4: for every key and fence buffer whose comparison mask is one of
the four legal patterns `000, 010, 011, 111`, the vectorized selector
(3-bit mask of `key > fence[i]` mapped through the fixed table
`000→0, 010→1, 011→2, 111→3`) returns the same branch id as the naive
scalar three-comparison selector. -/
theorem C4_simd_matches_scalar (inner : Nat → Int) (key : Int) (pos : Nat)
    (h : cmp_mask inner key pos = 0 ∨ cmp_mask inner key pos = 2 ∨
      cmp_mask inner key pos = 3 ∨ cmp_mask inner key pos = 7) :
    (branch_table 0 = 0 ∧ branch_table 2 = 1 ∧ branch_table 3 = 2 ∧
        branch_table 7 = 3) ∧
      lookup_simd_block inner key pos =
        scalar_branch key (inner pos) (inner (pos + 1)) (inner (pos + 2)) := by
  refine ⟨⟨rfl, rfl, rfl, rfl⟩, ?_⟩
  unfold lookup_simd_block scalar_branch
  unfold cmp_mask at h ⊢
  by_cases h0 : inner pos < key <;> by_cases h1 : inner (pos + 1) < key <;>
      by_cases h2 : inner (pos + 2) < key <;>
    simp only [h0, h1, h2, if_true, if_false, gt_iff_lt, if_pos, if_neg,
      not_false_eq_true, ite_true, ite_false] at h ⊢ <;>
    simp_all [branch_table]

/-- C4 witness: the all-zero fence buffer against key 1 has the legal
mask `111` and both selectors return branch 3. -/
theorem C4_simd_matches_scalar_w :
    (cmp_mask (fun _ => 0) 1 0 = 0 ∨ cmp_mask (fun _ => 0) 1 0 = 2 ∨
        cmp_mask (fun _ => 0) 1 0 = 3 ∨ cmp_mask (fun _ => 0) 1 0 = 7) ∧
      ((branch_table 0 = 0 ∧ branch_table 2 = 1 ∧ branch_table 3 = 2 ∧
          branch_table 7 = 3) ∧
        lookup_simd_block (fun _ => 0) 1 0 =
          scalar_branch 1 ((fun _ => 0) 0) ((fun _ => 0) (0 + 1))
            ((fun _ => 0) (0 + 2))) :=
  ⟨by decide, C4_simd_matches_scalar (fun _ => 0) 1 0 (by decide)⟩

/-- C5 counterexample: the claim states an impossible mask is treated as
a fatal invariant violation and never yields a branch id.  Against the
non-monotone fence buffer `(0, 10, 10)` the key 5 produces the
impossible mask `001`; the selector returns the sentinel 9 and the
cacheline lookup proceeds with it, producing the garbage combined
branch id `9 * 4 + 3 = 39` instead of failing. -/
theorem C5_cex :
    cmp_mask innerImp 5 0 = 1 ∧ lookup_simd_block innerImp 5 0 = 9 ∧
      lookup_cacheline_block innerImp 5 0 = 39 := by decide

/-- C5 (amended): when the comparison mask is one of the four
declared-impossible patterns, the selector returns the sentinel value 9
— distinct from every legal branch id 0–3 — without any fatal check,
and execution continues with it. -/
theorem C5_impossible_mask_sentinel (inner : Nat → Int) (key : Int)
    (pos : Nat)
    (h : ¬(cmp_mask inner key pos = 0 ∨ cmp_mask inner key pos = 2 ∨
      cmp_mask inner key pos = 3 ∨ cmp_mask inner key pos = 7)) :
    lookup_simd_block inner key pos = 9 ∧ 3 < 9 := by
  refine ⟨?_, by omega⟩
  unfold lookup_simd_block
  unfold cmp_mask at h ⊢
  by_cases h0 : inner pos < key <;> by_cases h1 : inner (pos + 1) < key <;>
      by_cases h2 : inner (pos + 2) < key <;>
    simp only [h0, h1, h2, ite_true, ite_false] at h ⊢ <;>
    simp_all [branch_table]

/-- C5 witness: the impossible mask `001` of the counterexample buffer
indeed yields the sentinel 9. -/
theorem C5_impossible_mask_sentinel_w :
    ¬(cmp_mask innerImp 5 0 = 0 ∨ cmp_mask innerImp 5 0 = 2 ∨
        cmp_mask innerImp 5 0 = 3 ∨ cmp_mask innerImp 5 0 = 7) ∧
      (lookup_simd_block innerImp 5 0 = 9 ∧ 3 < 9) :=
  ⟨by decide, C5_impossible_mask_sentinel innerImp 5 0 (by decide)⟩

/-- C6: `find` leaves the output vector unchanged (appends nothing)
whenever the index is empty or the key lies below `key_min` or above
`key_max`; these short-circuits are ordinary early returns, not
errors. -/
theorem C6_out_of_range_unchanged (idx : FastIndexT) (key : Int)
    (values : List Nat)
    (h : idx.container.length = 0 ∨ key < idx.key_min ∨ key > idx.key_max) :
    find idx key values = values := by
  rcases h with h | h | h
  · simp [find, h]
  · simp [find, h]
  · simp [find, h]

/-- C6 witness: on a one-record index with bounds `[1, 1]`, the query
key 0 is below `key_min` and `find` returns the empty vector
unchanged. -/
theorem C6_out_of_range_unchanged_w :
    (idxOne.container.length = 0 ∨ (0 : Int) < idxOne.key_min ∨
        (0 : Int) > idxOne.key_max) ∧
      find idxOne 0 [] = [] :=
  ⟨Or.inr (Or.inl (by decide)),
    C6_out_of_range_unchanged idxOne 0 [] (Or.inr (Or.inl (by decide)))⟩

/-- C7: after a successful `reorganize` of a non-empty table whose
records all carry the single key `K` (so `key_min == key_max`),
`find K` appends every record's reference in table order, and
`find K'` for `K' ≠ K` appends nothing; the degenerate branch returns
before any tree traversal or binary search. -/
theorem C7_degenerate_single_key (c : List Record) (n : Nat)
    (idx : FastIndexT) (K Kp : Int) (values : List Nat)
    (hre : reorganize c n = some idx) (hne : c ≠ [])
    (hall : ∀ r ∈ c, r.key = K) (hKp : Kp ≠ K) :
    find idx K values = values ++ c.map (fun r => r.value) ∧
      find idx Kp values = values := by
  have hlen : 0 < c.length := List.length_pos.mpr hne
  simp only [reorganize] at hre
  split at hre
  · have hidx := Option.some.inj hre
    subst hidx
    have hmin : getKey c 0 = K := hall _ (getD_mem c 0 _ hlen)
    have hmax : getKey c (c.length - 1) = K :=
      hall _ (getD_mem c _ _ (by omega))
    constructor
    · simp [find, hmin, hmax, hlen.ne']
    · rcases hKp.lt_or_lt with hlt | hlt
      · simp [find, hmin, hmax, hlen.ne', hlt]
      · simp [find, hmin, hmax, hlen.ne', hlt]
  · exact absurd hre (by simp)

/-- C7 witness: both records of the table carry key 5; `find 5` returns
both references and `find 6` returns nothing. -/
theorem C7_degenerate_single_key_w :
    reorganize [(⟨5, 0⟩ : Record), ⟨5, 1⟩] 0 = some idxDegenerate ∧
      ([(⟨5, 0⟩ : Record), ⟨5, 1⟩] ≠ []) ∧
      (∀ r ∈ [(⟨5, 0⟩ : Record), ⟨5, 1⟩], r.key = 5) ∧ ((6 : Int) ≠ 5) ∧
      (find idxDegenerate 5 [] =
          [] ++ [(⟨5, 0⟩ : Record), ⟨5, 1⟩].map (fun r => r.value) ∧
        find idxDegenerate 6 [] = []) :=
  ⟨rfl, by decide, by decide, by decide,
    C7_degenerate_single_key [⟨5, 0⟩, ⟨5, 1⟩] 0 idxDegenerate 5 6 [] rfl
      (by decide) (by decide) (by decide)⟩

/-- C8: a requested `num_layers` that is not a multiple of the derived
cacheline depth makes the constructor's final `ASSERT` fail (no index is
constructed), and a `reorganize` with `2^num_layers − 1 ≥ table size`
fails its `ASSERT` (no queryable state is produced). -/
theorem C8_invalid_config_fatal (n m : Nat) (c : List Record)
    (h1 : n % cacheline_depth ≠ 0) (h2 : 2 ^ m - 1 ≥ c.length) :
    fastIndexCtor n = none ∧ reorganize c m = none := by
  constructor
  · have he : fastIndexCtor n =
        if n % cacheline_depth ≠ 0 then none else some n := rfl
    rw [he, if_pos h1]
  · have h3 : ¬(2 ^ m - 1 < c.length) := by omega
    simp [reorganize, h3]

/-- C8 witness: `num_layers = 3` is not a multiple of the derived
cacheline depth 4, and a one-record table cannot host a depth-1 tree
(`2^1 − 1 = 1 ≥ 1`). -/
theorem C8_invalid_config_fatal_w :
    (3 % cacheline_depth ≠ 0) ∧
      (2 ^ 1 - 1 ≥ ([(⟨1, 0⟩ : Record)] : List Record).length) ∧
      (fastIndexCtor 3 = none ∧ reorganize [(⟨1, 0⟩ : Record)] 1 = none) :=
  ⟨by decide, by decide,
    C8_invalid_config_fatal 3 1 [⟨1, 0⟩] (by decide) (by decide)⟩

/-- C9 counterexample: on the scenario table with keys
`[1,1,3,5,5,5,9,12]` and references `0..7`, the three records with key 5
sit at indices 3, 4, 5, so `find 5` returns references `[3, 4, 5]`; the
claimed reference 2 belongs to the record with key 3 and is absent from
the result. -/
theorem C9_cex :
    (reorganize table9 0).map (fun idx => find idx 5 []) = some [3, 4, 5] ∧
      (reorganize table9 0).map (fun idx => (find idx 5 []).count 2) =
        some 0 ∧
      getKey table9 2 = 3 := by decide

/-- C9 (amended): with `num_layers = 0` on the scenario table, `find 5`
returns exactly the references `{3, 4, 5}` of the three records with
key 5, and `find 7` returns empty. -/
theorem C9_concrete_scenario :
    (reorganize table9 0).map (fun idx => find idx 5 []) = some [3, 4, 5] ∧
      (reorganize table9 0).map (fun idx => find idx 7 []) = some [] := by
  decide

/-- C10: `find` and `find_range` only append: every prior element of
the output vector survives in place, and any results follow it. -/
theorem C10_append_only (idx : FastIndexT) (key lo hi : Int)
    (values : List Nat) :
    (∃ t, find idx key values = values ++ t) ∧
      (∃ t, find_range idx lo hi values = values ++ t) := by
  constructor
  · simp only [find]
    repeat' split
    all_goals first
      | exact ⟨[], (List.append_nil values).symm⟩
      | exact ⟨_, rfl⟩
  · simp only [find_range]
    repeat' split
    all_goals exact ⟨[], (List.append_nil values).symm⟩

end FastIndex
